import Mathlib

/-!
Shallow embedding of the CHIP-8 emulator core (`src/chip8.rs`).

Machine integers are modelled as `Nat` with explicit `% 2^w` where the Rust
code wraps.  Rust array indexing that can go out of bounds is modelled by an
explicit bounds check returning a `Panic`; the `unimplemented!` macro in the
final match arm is modelled by `Panic.unimplemented`.  The busy-wait loop of
instruction `FX0A` never terminates when no key is pressed (the loop body
cannot change the key state), which is modelled by the `Outcome.diverge`
constructor.
-/

namespace Chip8

def SCREEN_WIDTH : Nat := 64
def SCREEN_HEIGHT : Nat := 32

def RAM_SIZE : Nat := 4096
def REGISTERS_SIZE : Nat := 16
def STACK_SIZE : Nat := 16
def KEYS_SIZE : Nat := 16
def FONTSET_SIZE : Nat := 80

def START_ADDRESS : Nat := 0x200

def FONTSET : List Nat :=
  [0xF0, 0x90, 0x90, 0x90, 0xF0,
   0x20, 0x60, 0x20, 0x20, 0x70,
   0xF0, 0x10, 0xF0, 0x80, 0xF0,
   0xF0, 0x10, 0xF0, 0x10, 0xF0,
   0x90, 0x90, 0xF0, 0x10, 0x10,
   0xF0, 0x80, 0xF0, 0x10, 0xF0,
   0xF0, 0x80, 0xF0, 0x90, 0xF0,
   0xF0, 0x10, 0x20, 0x40, 0x40,
   0xF0, 0x90, 0xF0, 0x90, 0xF0,
   0xF0, 0x90, 0xF0, 0x10, 0xF0,
   0xF0, 0x90, 0xF0, 0x90, 0x90,
   0xE0, 0x90, 0xE0, 0x90, 0xE0,
   0xF0, 0x80, 0x80, 0x80, 0xF0,
   0xE0, 0x90, 0x90, 0x90, 0xE0,
   0xF0, 0x80, 0xF0, 0x80, 0xF0,
   0xF0, 0x80, 0xF0, 0x80, 0x80]

/-- A Rust panic, as raised by out-of-bounds array indexing, checked integer
underflow, or the `unimplemented!` macro in the final match arm. -/
inductive Panic where
  | indexOutOfBounds : Panic
  | arithUnderflow : Panic
  | unimplemented : Nat → Panic
deriving DecidableEq

/-- Pointwise functional update, modelling a Rust array element assignment. -/
def setAt {α : Type} (f : Nat → α) (i : Nat) (v : α) : Nat → α :=
  fun j => if j = i then v else f j

/-- The `Emulator` struct.  Fixed-size Rust arrays are modelled as total
functions from indices; all reads the Rust code performs are guarded by the
same bounds the Rust indexing operator enforces. -/
structure Emulator where
  program_counter : Nat
  ram : Nat → Nat
  screen : Nat → Bool
  v_registers : Nat → Nat
  i_register : Nat
  stack_pointer : Nat
  stack : Nat → Nat
  keys : Nat → Bool
  delay_timer : Nat
  sound_timer : Nat

/-- Copy the fontset into the first `FONTSET_SIZE` bytes of ram
(`ram[..FONTSET_SIZE].copy_from_slice(&FONTSET)`). -/
def seedFont (ram : Nat → Nat) : Nat → Nat :=
  fun a => if a < FONTSET_SIZE then FONTSET.getD a 0 else ram a

/-- `Emulator::new`. -/
def Emulator.new : Emulator where
  program_counter := START_ADDRESS
  ram := seedFont (fun _ => 0)
  screen := fun _ => false
  v_registers := fun _ => 0
  i_register := 0
  stack_pointer := 0
  stack := fun _ => 0
  keys := fun _ => false
  delay_timer := 0
  sound_timer := 0

/-- `Emulator::keypress`: sets one key flag; out-of-range index panics. -/
def Emulator.keypress (e : Emulator) (idx : Nat) (pressed : Bool) :
    Except Panic Emulator :=
  if idx < KEYS_SIZE then .ok { e with keys := setAt e.keys idx pressed }
  else .error .indexOutOfBounds

/-- Write the data bytes at consecutive addresses, modelling
`copy_from_slice` into `ram[begin..end]` once the slice bounds are known to
be in range. -/
def writeSlice (ram : Nat → Nat) (start : Nat) : List Nat → (Nat → Nat)
  | [] => ram
  | b :: rest => writeSlice (setAt ram start b) (start + 1) rest

/-- `Emulator::load_rom`: `self.ram[begin..end].copy_from_slice(data)`.
The Rust slice operation panics when `end` exceeds `RAM_SIZE`; there is no
length validation in the source. -/
def Emulator.load_rom (e : Emulator) (data : List Nat) : Except Panic Emulator :=
  let begin_address := START_ADDRESS
  let end_address := START_ADDRESS + data.length
  if end_address ≤ RAM_SIZE then
    .ok { e with ram := writeSlice e.ram begin_address data }
  else .error .indexOutOfBounds

/-- `Emulator::reset`: assigns every field its just-created value and
re-seeds the font table. -/
def Emulator.reset (_e : Emulator) : Emulator where
  program_counter := START_ADDRESS
  ram := seedFont (fun _ => 0)
  screen := fun _ => false
  v_registers := fun _ => 0
  i_register := 0
  stack_pointer := 0
  stack := fun _ => 0
  keys := fun _ => false
  delay_timer := 0
  sound_timer := 0

/-- `Emulator::push`: `self.stack[self.stack_pointer] = address` panics when
the stack pointer is not below `STACK_SIZE`; otherwise the pointer is
incremented. -/
def Emulator.push (e : Emulator) (address : Nat) : Except Panic Emulator :=
  if e.stack_pointer < STACK_SIZE then
    .ok { e with stack := setAt e.stack e.stack_pointer address,
                 stack_pointer := e.stack_pointer + 1 }
  else .error .indexOutOfBounds

/-- `Emulator::pop`: `self.stack_pointer -= 1` underflows (a checked-subtraction
panic) when the pointer is 0; otherwise the decremented pointer indexes the
stack. -/
def Emulator.pop (e : Emulator) : Except Panic (Nat × Emulator) :=
  if e.stack_pointer = 0 then .error .arithUnderflow
  else
    let sp := e.stack_pointer - 1
    if sp < STACK_SIZE then .ok (e.stack sp, { e with stack_pointer := sp })
    else .error .indexOutOfBounds

/-- `Emulator::timers`. -/
def Emulator.timers (e : Emulator) : Emulator :=
  let e1 := if e.delay_timer > 0 then { e with delay_timer := e.delay_timer - 1 } else e
  if e1.sound_timer > 0 then { e1 with sound_timer := e1.sound_timer - 1 } else e1

/-- `Emulator::fetch`: reads the bytes at `program_counter` and
`program_counter + 1` (panicking if either index is out of ram bounds),
combines them big-endian, and advances the program counter by 2. -/
def Emulator.fetch (e : Emulator) : Except Panic (Nat × Emulator) :=
  if e.program_counter + 1 < RAM_SIZE then
    let left_byte := e.ram e.program_counter
    let right_byte := e.ram (e.program_counter + 1)
    let instruction := (left_byte <<< 8) ||| right_byte
    .ok (instruction, { e with program_counter := e.program_counter + 2 })
  else .error .indexOutOfBounds

/-- One write into ram with the bounds check of the Rust indexing operator. -/
def writeRam (ram : Nat → Nat) (a v : Nat) : Except Panic (Nat → Nat) :=
  if a < RAM_SIZE then .ok (setAt ram a v) else .error .indexOutOfBounds

/-- The inner loop of `DXYN`: for each `xLine` in `0..8` whose sprite bit is
set, XOR the wrapped screen cell with `true`, accumulating the collision
flag from the value the cell held before the XOR. -/
def spriteRow (x_coord y_coord yLine row_pixels : Nat)
    (acc : (Nat → Bool) × Bool) : (Nat → Bool) × Bool :=
  (List.range 8).foldl (fun acc xLine =>
    if row_pixels &&& (0x80 >>> xLine) ≠ 0 then
      let x := (x_coord + xLine) % SCREEN_WIDTH
      let y := (y_coord + yLine) % SCREEN_HEIGHT
      let screen_index := x + SCREEN_WIDTH * y
      (setAt acc.1 screen_index (Bool.xor (acc.1 screen_index) true),
       acc.2 || acc.1 screen_index)
    else acc) acc

/-- The outer loop of `DXYN`: reads each sprite row byte at
`i_register + yLine` (panicking when the address is out of ram bounds) and
draws it. -/
def spriteRows (ram : Nat → Nat) (i_register x_coord y_coord : Nat) :
    List Nat → ((Nat → Bool) × Bool) → Except Panic ((Nat → Bool) × Bool)
  | [], acc => .ok acc
  | yLine :: rest, acc =>
    let row_address := i_register + yLine
    if row_address < RAM_SIZE then
      spriteRows ram i_register x_coord y_coord rest
        (spriteRow x_coord y_coord yLine (ram row_address) acc)
    else .error .indexOutOfBounds

/-- The loop of `FX55`: `ram[start_address + i] = v_registers[i]` for `i` in
`0..=X`, with the ram bounds check of each write. -/
def storeRegs (ram : Nat → Nat) (v : Nat → Nat) (start_address : Nat) :
    List Nat → Except Panic (Nat → Nat)
  | [] => .ok ram
  | i :: rest =>
    if start_address + i < RAM_SIZE then
      storeRegs (setAt ram (start_address + i) (v i)) v start_address rest
    else .error .indexOutOfBounds

/-- The loop of `FX65`: `v_registers[i] = ram[start_address + i]` for `i` in
`0..=X`, with the ram bounds check of each read. -/
def loadRegs (ram : Nat → Nat) (v : Nat → Nat) (start_address : Nat) :
    List Nat → Except Panic (Nat → Nat)
  | [] => .ok v
  | i :: rest =>
    if start_address + i < RAM_SIZE then
      loadRegs ram (setAt v i (ram (start_address + i))) start_address rest
    else .error .indexOutOfBounds

/-- Result of one execute or tick call: a new state, a panic, or divergence
(the `FX0A` busy-wait loop spinning forever because no key is pressed and
nothing inside the loop can change the key state). -/
inductive Outcome where
  | ok : Emulator → Outcome
  | panic : Panic → Outcome
  | diverge : Outcome

/-- Lift a fallible state computation into an `Outcome`. -/
def liftE : Except Panic Emulator → Outcome
  | .ok e => .ok e
  | .error p => .panic p

/-- `Emulator::execute`.  The Rust `match` on the four nibbles is translated
as a cascade of mutually exclusive tests in the source's arm order; the
wildcard arm is the `unimplemented!` panic.  The entropy drawn by `CXKK` is
passed in as the `rand` argument. -/
def Emulator.execute (e : Emulator) (instruction rand : Nat) : Outcome :=
  let digit1 := (instruction &&& 0xF000) >>> 12
  let digit2 := (instruction &&& 0x0F00) >>> 8
  let digit3 := (instruction &&& 0x00F0) >>> 4
  let digit4 := instruction &&& 0x000F
  if digit1 = 0 ∧ digit2 = 0 ∧ digit3 = 0 ∧ digit4 = 0 then
    .ok e
  else if digit1 = 0 ∧ digit2 = 0 ∧ digit3 = 0xE ∧ digit4 = 0 then
    .ok { e with screen := fun _ => false }
  else if digit1 = 0 ∧ digit2 = 0 ∧ digit3 = 0xE ∧ digit4 = 0xE then
    match e.pop with
    | .ok (return_address, e1) => .ok { e1 with program_counter := return_address }
    | .error p => .panic p
  else if digit1 = 1 then
    .ok { e with program_counter := instruction &&& 0xFFF }
  else if digit1 = 2 then
    match e.push e.program_counter with
    | .ok e1 => .ok { e1 with program_counter := instruction &&& 0xFFF }
    | .error p => .panic p
  else if digit1 = 3 then
    if e.v_registers digit2 = instruction &&& 0xFF then
      .ok { e with program_counter := (e.program_counter + 2) % 65536 }
    else .ok e
  else if digit1 = 4 then
    if e.v_registers digit2 ≠ instruction &&& 0xFF then
      .ok { e with program_counter := (e.program_counter + 2) % 65536 }
    else .ok e
  else if digit1 = 5 then
    if e.v_registers digit2 = e.v_registers digit3 then
      .ok { e with program_counter := (e.program_counter + 2) % 65536 }
    else .ok e
  else if digit1 = 6 then
    .ok { e with v_registers := setAt e.v_registers digit2 (instruction &&& 0xFF) }
  else if digit1 = 7 then
    .ok { e with v_registers := setAt e.v_registers digit2 ((e.v_registers digit2 + (instruction &&& 0xFF)) % 256) }
  else if digit1 = 8 ∧ digit4 = 0 then
    .ok { e with v_registers := setAt e.v_registers digit2 (e.v_registers digit3) }
  else if digit1 = 8 ∧ digit4 = 1 then
    .ok { e with v_registers := setAt e.v_registers digit2 (e.v_registers digit2 ||| e.v_registers digit3) }
  else if digit1 = 8 ∧ digit4 = 2 then
    .ok { e with v_registers := setAt e.v_registers digit2 (e.v_registers digit2 &&& e.v_registers digit3) }
  else if digit1 = 8 ∧ digit4 = 3 then
    .ok { e with v_registers := setAt e.v_registers digit2 (e.v_registers digit2 ^^^ e.v_registers digit3) }
  else if digit1 = 8 ∧ digit4 = 4 then
    let new_vx := (e.v_registers digit2 + e.v_registers digit3) % 256
    let carry := 256 ≤ e.v_registers digit2 + e.v_registers digit3
    let e1 := { e with v_registers := setAt e.v_registers 0xF (if carry then 1 else 0) }
    .ok { e1 with v_registers := setAt e1.v_registers digit2 new_vx }
  else if digit1 = 8 ∧ digit4 = 5 then
    let new_vx := (e.v_registers digit2 + 256 - e.v_registers digit3) % 256
    let borrow := e.v_registers digit2 < e.v_registers digit3
    let e1 := { e with v_registers := setAt e.v_registers 0xF (if borrow then 0 else 1) }
    .ok { e1 with v_registers := setAt e1.v_registers digit2 new_vx }
  else if digit1 = 8 ∧ digit4 = 6 then
    let e1 := { e with v_registers := setAt e.v_registers 0xF (e.v_registers digit2 &&& 1) }
    .ok { e1 with v_registers := setAt e1.v_registers digit2 (e1.v_registers digit2 >>> 1) }
  else if digit1 = 8 ∧ digit4 = 7 then
    let new_vx := (e.v_registers digit3 + 256 - e.v_registers digit2) % 256
    let borrow := e.v_registers digit3 < e.v_registers digit2
    let e1 := { e with v_registers := setAt e.v_registers 0xF (if borrow then 0 else 1) }
    .ok { e1 with v_registers := setAt e1.v_registers digit2 new_vx }
  else if digit1 = 8 ∧ digit4 = 0xE then
    let e1 := { e with v_registers := setAt e.v_registers 0xF ((e.v_registers digit2 >>> 7) &&& 1) }
    .ok { e1 with v_registers := setAt e1.v_registers digit2 ((e1.v_registers digit2 <<< 1) % 256) }
  else if digit1 = 9 ∧ digit4 = 0 then
    if e.v_registers digit2 ≠ e.v_registers digit3 then
      .ok { e with program_counter := (e.program_counter + 2) % 65536 }
    else .ok e
  else if digit1 = 0xA then
    .ok { e with i_register := instruction &&& 0xFFF }
  else if digit1 = 0xB then
    .ok { e with program_counter := e.v_registers 0 + (instruction &&& 0xFFF) }
  else if digit1 = 0xC then
    .ok { e with v_registers := setAt e.v_registers digit2 ((instruction &&& 0xFF) &&& (rand % 256)) }
  else if digit1 = 0xD then
    let x_coord := e.v_registers digit2
    let y_coord := e.v_registers digit3
    let height := digit4
    match spriteRows e.ram e.i_register x_coord y_coord (List.range height)
        (e.screen, false) with
    | .ok (new_screen, collision) =>
      .ok { e with screen := new_screen, v_registers := setAt e.v_registers 0xF (if collision then 1 else 0) }
    | .error p => .panic p
  else if digit1 = 0xE ∧ digit3 = 9 ∧ digit4 = 0xE then
    let key_index := e.v_registers digit2
    if key_index < KEYS_SIZE then
      if e.keys key_index then
        .ok { e with program_counter := (e.program_counter + 2) % 65536 }
      else .ok e
    else .panic .indexOutOfBounds
  else if digit1 = 0xE ∧ digit3 = 0xA ∧ digit4 = 1 then
    let key_index := e.v_registers digit2
    if key_index < KEYS_SIZE then
      if e.keys key_index then .ok e
      else .ok { e with program_counter := (e.program_counter + 2) % 65536 }
    else .panic .indexOutOfBounds
  else if digit1 = 0xF ∧ digit3 = 0 ∧ digit4 = 7 then
    .ok { e with v_registers := setAt e.v_registers digit2 e.delay_timer }
  else if digit1 = 0xF ∧ digit3 = 0 ∧ digit4 = 0xA then
    match (List.range KEYS_SIZE).find? (fun i => e.keys i) with
    | some i => .ok { e with v_registers := setAt e.v_registers digit2 i }
    | none => .diverge
  else if digit1 = 0xF ∧ digit3 = 1 ∧ digit4 = 5 then
    .ok { e with delay_timer := e.v_registers digit2 }
  else if digit1 = 0xF ∧ digit3 = 1 ∧ digit4 = 8 then
    .ok { e with sound_timer := e.v_registers digit2 }
  else if digit1 = 0xF ∧ digit3 = 1 ∧ digit4 = 0xE then
    .ok { e with i_register := (e.i_register + e.v_registers digit2) % 65536 }
  else if digit1 = 0xF ∧ digit3 = 2 ∧ digit4 = 9 then
    .ok { e with i_register := e.v_registers digit2 * 5 }
  else if digit1 = 0xF ∧ digit3 = 3 ∧ digit4 = 3 then
    liftE (do
      let vx := e.v_registers digit2
      let r1 ← writeRam e.ram e.i_register (vx / 100)
      let r2 ← writeRam r1 (e.i_register + 1) (vx / 10 % 10)
      let r3 ← writeRam r2 (e.i_register + 2) (vx % 10)
      pure { e with ram := r3 })
  else if digit1 = 0xF ∧ digit3 = 5 ∧ digit4 = 5 then
    match storeRegs e.ram e.v_registers e.i_register (List.range (digit2 + 1)) with
    | .ok new_ram => .ok { e with ram := new_ram }
    | .error p => .panic p
  else if digit1 = 0xF ∧ digit3 = 6 ∧ digit4 = 5 then
    match loadRegs e.ram e.v_registers e.i_register (List.range (digit2 + 1)) with
    | .ok new_regs => .ok { e with v_registers := new_regs }
    | .error p => .panic p
  else
    .panic (.unimplemented instruction)

/-- `Emulator::tick`: fetch, then execute. -/
def Emulator.tick (e : Emulator) (rand : Nat) : Outcome :=
  match e.fetch with
  | .ok (instruction, e1) => e1.execute instruction rand
  | .error p => .panic p



/-! ### Specification-side helpers and concrete states used by the theorems -/

/-- The screen index that the draw instruction XORs for sprite row `r` and
bit column `c`: coordinates `((Vx + c) mod 64, (Vy + r) mod 32)`, both axes
wrapping independently, in the row-major screen layout. -/
def targetIdx (x_coord y_coord r c : Nat) : Nat :=
  (x_coord + c) % SCREEN_WIDTH + SCREEN_WIDTH * ((y_coord + r) % SCREEN_HEIGHT)

/-- The body of the inner draw loop of `DXYN` (the `xLine` iteration of
`spriteRow`), named so the loop can be reasoned about by induction. -/
def drawStep (x_coord y_coord yLine row_pixels : Nat)
    (acc : (Nat → Bool) × Bool) (xLine : Nat) : (Nat → Bool) × Bool :=
  if row_pixels &&& (0x80 >>> xLine) ≠ 0 then
    let x := (x_coord + xLine) % SCREEN_WIDTH
    let y := (y_coord + yLine) % SCREEN_HEIGHT
    let screen_index := x + SCREEN_WIDTH * y
    (setAt acc.1 screen_index (Bool.xor (acc.1 screen_index) true), acc.2 || acc.1 screen_index)
  else acc

/-- A state whose next instruction is `F10A` (wait for key into V1) and in
which no key is pressed. -/
def waitState : Emulator :=
  { Emulator.new with ram := setAt (setAt Emulator.new.ram 0x200 0xF1) 0x201 0x0A }

/-- A state whose call stack is full. -/
def fullStackState : Emulator := { Emulator.new with stack_pointer := 16 }

/-- A state with V0 = 5 and V1 = 1. -/
def subStateA : Emulator :=
  { Emulator.new with v_registers := setAt (setAt Emulator.new.v_registers 0 0x05) 1 0x01 }

/-- A state with V0 = 1 and V1 = 5. -/
def subStateB : Emulator :=
  { Emulator.new with v_registers := setAt (setAt Emulator.new.v_registers 0 0x01) 1 0x05 }

/-- A state with V2 = 0x30, an out-of-range key index. -/
def keyState : Emulator :=
  { Emulator.new with v_registers := setAt Emulator.new.v_registers 2 0x30 }

/-- A state whose next instruction is `1234` (jump to 0x234). -/
def jumpState : Emulator :=
  { Emulator.new with ram := setAt (setAt Emulator.new.ram 0x200 0x12) 0x201 0x34 }

/-- A state mutated away from the fresh state in several fields. -/
def dirtyState : Emulator :=
  { Emulator.new with
    program_counter := 0x300,
    i_register := 7,
    delay_timer := 9,
    v_registers := setAt Emulator.new.v_registers 3 0xAB,
    screen := setAt Emulator.new.screen 100 true }

/-- A state with V0 = 63, I = 0x300, and the one-row sprite byte 0x01 at
0x300, so drawing at x = 63 places the lit column at x = 6. -/
def drawState : Emulator :=
  { Emulator.new with
    v_registers := setAt Emulator.new.v_registers 0 63,
    i_register := 0x300,
    ram := setAt Emulator.new.ram 0x300 0x01 }

/-! ### Bridge lemmas for the nibble extraction used by `Emulator.execute` -/

theorem and_shiftLeft_shiftRight (w a k : Nat) : (w &&& (a <<< k)) >>> k = (w >>> k) &&& a := by
  apply Nat.eq_of_testBit_eq
  intro i
  simp [Nat.testBit_shiftRight, Nat.testBit_and, Nat.testBit_shiftLeft]

theorem shiftLeft_or_eq_add (a b : Nat) (hb : b < 256) : (a <<< 8) ||| b = 256 * a + b := by
  rw [Nat.shiftLeft_eq]
  have h : a * 2 ^ 8 = 2 ^ 8 * a := Nat.mul_comm _ _
  have hb' : b < 2 ^ 8 := by norm_num; omega
  rw [h, ← Nat.mul_add_lt_is_or hb' a]

theorem digit1_eq (w : Nat) : (w &&& 0xF000) >>> 12 = w / 4096 % 16 := by
  have h : (0xF000 : Nat) = 0xF <<< 12 := by norm_num [Nat.shiftLeft_eq]
  rw [h, and_shiftLeft_shiftRight]
  have h15 : (0xF : Nat) = 2 ^ 4 - 1 := by norm_num
  rw [h15, Nat.and_pow_two_sub_one_eq_mod, Nat.shiftRight_eq_div_pow]

theorem digit2_eq (w : Nat) : (w &&& 0x0F00) >>> 8 = w / 256 % 16 := by
  have h : (0x0F00 : Nat) = 0xF <<< 8 := by norm_num [Nat.shiftLeft_eq]
  rw [h, and_shiftLeft_shiftRight]
  have h15 : (0xF : Nat) = 2 ^ 4 - 1 := by norm_num
  rw [h15, Nat.and_pow_two_sub_one_eq_mod, Nat.shiftRight_eq_div_pow]

theorem digit3_eq (w : Nat) : (w &&& 0x00F0) >>> 4 = w / 16 % 16 := by
  have h : (0x00F0 : Nat) = 0xF <<< 4 := by norm_num [Nat.shiftLeft_eq]
  rw [h, and_shiftLeft_shiftRight]
  have h15 : (0xF : Nat) = 2 ^ 4 - 1 := by norm_num
  rw [h15, Nat.and_pow_two_sub_one_eq_mod, Nat.shiftRight_eq_div_pow]

theorem digit4_eq (w : Nat) : w &&& 0x000F = w % 16 := by
  have h15 : (0x000F : Nat) = 2 ^ 4 - 1 := by norm_num
  rw [h15, Nat.and_pow_two_sub_one_eq_mod]

theorem mask_FF_eq (w : Nat) : w &&& 0xFF = w % 256 := by
  have h : (0xFF : Nat) = 2 ^ 8 - 1 := by norm_num
  rw [h, Nat.and_pow_two_sub_one_eq_mod]

theorem mask_FFF_eq (w : Nat) : w &&& 0xFFF = w % 4096 := by
  have h : (0xFFF : Nat) = 2 ^ 12 - 1 := by norm_num
  rw [h, Nat.and_pow_two_sub_one_eq_mod]


/-! ### Characterization of the draw loops -/

theorem spriteRow_eq_foldl (x0 y0 r B : Nat) (acc : (Nat → Bool) × Bool) :
    spriteRow x0 y0 r B acc = (List.range 8).foldl (drawStep x0 y0 r B) acc := rfl

theorem targetIdx_inj (x0 y0 : Nat) {r1 c1 r2 c2 : Nat} (hr1 : r1 < 16) (hr2 : r2 < 16)
    (hc1 : c1 < 8) (hc2 : c2 < 8)
    (he : targetIdx x0 y0 r1 c1 = targetIdx x0 y0 r2 c2) : r1 = r2 ∧ c1 = c2 := by
  unfold targetIdx SCREEN_WIDTH SCREEN_HEIGHT at he
  omega

theorem targetIdx_inj_col (x0 y0 r : Nat) {c1 c2 : Nat} (hc1 : c1 < 8) (hc2 : c2 < 8)
    (he : targetIdx x0 y0 r c1 = targetIdx x0 y0 r c2) : c1 = c2 := by
  unfold targetIdx SCREEN_WIDTH SCREEN_HEIGHT at he
  omega

theorem drawStep_foldl_char (x0 y0 r B : Nat) (L : List Nat)
    (hL : ∀ c ∈ L, c < 8) (hnd : L.Nodup) (s : Nat → Bool) (b : Bool) :
    (∀ p, (∃ c ∈ L, B &&& (0x80 >>> c) ≠ 0 ∧ p = targetIdx x0 y0 r c) →
        (L.foldl (drawStep x0 y0 r B) (s, b)).1 p = Bool.xor (s p) true) ∧
    (∀ p, (¬ ∃ c ∈ L, B &&& (0x80 >>> c) ≠ 0 ∧ p = targetIdx x0 y0 r c) →
        (L.foldl (drawStep x0 y0 r B) (s, b)).1 p = s p) ∧
    ((L.foldl (drawStep x0 y0 r B) (s, b)).2 = true ↔
        b = true ∨ ∃ c ∈ L, B &&& (0x80 >>> c) ≠ 0 ∧ s (targetIdx x0 y0 r c) = true) := by
  induction L generalizing s b with
  | nil => simp
  | cons c L' ih =>
    simp only [List.foldl_cons]
    have hc8 : c < 8 := hL c (List.mem_cons_self c L')
    have hL' : ∀ c' ∈ L', c' < 8 := fun c' hc' => hL c' (List.mem_cons_of_mem c hc')
    have hnd' : L'.Nodup := (List.nodup_cons.mp hnd).2
    have hcn : c ∉ L' := (List.nodup_cons.mp hnd).1
    by_cases hbit : B &&& (0x80 >>> c) ≠ 0
    · have hstep : drawStep x0 y0 r B (s, b) c =
          (setAt s (targetIdx x0 y0 r c) (Bool.xor (s (targetIdx x0 y0 r c)) true),
           b || s (targetIdx x0 y0 r c)) := by
        simp only [drawStep, if_pos hbit]
        rfl
      rw [hstep]
      obtain ⟨ih1, ih2, ih3⟩ := ih hL' hnd'
        (setAt s (targetIdx x0 y0 r c) (Bool.xor (s (targetIdx x0 y0 r c)) true))
        (b || s (targetIdx x0 y0 r c))
      have hne : ∀ c' ∈ L', targetIdx x0 y0 r c' ≠ targetIdx x0 y0 r c := by
        intro c' hc' heq
        exact hcn ((targetIdx_inj_col x0 y0 r (hL' c' hc') hc8 heq) ▸ hc')
      have hs' : ∀ c' ∈ L',
          setAt s (targetIdx x0 y0 r c) (Bool.xor (s (targetIdx x0 y0 r c)) true)
            (targetIdx x0 y0 r c') = s (targetIdx x0 y0 r c') := by
        intro c' hc'
        rw [setAt, if_neg (hne c' hc')]
      refine ⟨?_, ?_, ?_⟩
      · rintro p ⟨c'', hmem, hbit'', hp⟩
        rcases List.mem_cons.mp hmem with hceq | hmem'
        · subst hceq
          by_cases hrest : ∃ c' ∈ L', B &&& (0x80 >>> c') ≠ 0 ∧ p = targetIdx x0 y0 r c'
          · obtain ⟨c', hc', _, hp'⟩ := hrest
            exact absurd (hp'.symm.trans hp) (hne c' hc')
          · rw [ih2 p hrest, hp, setAt, if_pos rfl]
        · rw [ih1 p ⟨c'', hmem', hbit'', hp⟩, hp, hs' c'' hmem']
      · intro p hno
        have hnoL' : ¬ ∃ c' ∈ L', B &&& (0x80 >>> c') ≠ 0 ∧ p = targetIdx x0 y0 r c' := by
          rintro ⟨c', hc', hb', hp'⟩
          exact hno ⟨c', List.mem_cons_of_mem c hc', hb', hp'⟩
        have hpt : p ≠ targetIdx x0 y0 r c := by
          intro hp
          exact hno ⟨c, List.mem_cons_self c L', hbit, hp⟩
        rw [ih2 p hnoL', setAt, if_neg hpt]
      · rw [ih3]
        have hiff : (∃ c' ∈ L', B &&& (0x80 >>> c') ≠ 0 ∧
            setAt s (targetIdx x0 y0 r c) (Bool.xor (s (targetIdx x0 y0 r c)) true)
              (targetIdx x0 y0 r c') = true) ↔
            (∃ c' ∈ L', B &&& (0x80 >>> c') ≠ 0 ∧ s (targetIdx x0 y0 r c') = true) := by
          constructor
          · rintro ⟨c', hc', hb', hscr⟩
            rw [hs' c' hc'] at hscr
            exact ⟨c', hc', hb', hscr⟩
          · rintro ⟨c', hc', hb', hscr⟩
            exact ⟨c', hc', hb', (hs' c' hc').trans hscr⟩
        rw [hiff]
        constructor
        · rintro (hb | ⟨c', hc', hb', hscr⟩)
          · simp only [Bool.or_eq_true] at hb
            rcases hb with hb | hb
            · exact Or.inl hb
            · exact Or.inr ⟨c, List.mem_cons_self c L', hbit, hb⟩
          · exact Or.inr ⟨c', List.mem_cons_of_mem c hc', hb', hscr⟩
        · rintro (hb | ⟨c', hc', hb', hscr⟩)
          · exact Or.inl (by simp [hb])
          · rcases List.mem_cons.mp hc' with hceq | hmem'
            · subst hceq
              exact Or.inl (by simp [hscr])
            · exact Or.inr ⟨c', hmem', hb', hscr⟩
    · have hstep : drawStep x0 y0 r B (s, b) c = (s, b) := by
        simp only [drawStep, if_neg hbit]
      rw [hstep]
      obtain ⟨ih1, ih2, ih3⟩ := ih hL' hnd' s b
      refine ⟨?_, ?_, ?_⟩
      · rintro p ⟨c'', hmem, hbit'', hp⟩
        rcases List.mem_cons.mp hmem with hceq | hmem'
        · exact absurd (hceq ▸ hbit'') hbit
        · exact ih1 p ⟨c'', hmem', hbit'', hp⟩
      · intro p hno
        refine ih2 p ?_
        rintro ⟨c', hc', hb', hp'⟩
        exact hno ⟨c', List.mem_cons_of_mem c hc', hb', hp'⟩
      · rw [ih3]
        constructor
        · rintro (hb | ⟨c', hc', hb', hscr⟩)
          · exact Or.inl hb
          · exact Or.inr ⟨c', List.mem_cons_of_mem c hc', hb', hscr⟩
        · rintro (hb | ⟨c', hc', hb', hscr⟩)
          · exact Or.inl hb
          · rcases List.mem_cons.mp hc' with hceq | hmem'
            · exact absurd (hceq ▸ hb') hbit
            · exact Or.inr ⟨c', hmem', hb', hscr⟩

theorem spriteRow_char (x0 y0 r B : Nat) (s : Nat → Bool) (b : Bool) :
    (∀ p, (∃ c, c < 8 ∧ B &&& (0x80 >>> c) ≠ 0 ∧ p = targetIdx x0 y0 r c) →
        (spriteRow x0 y0 r B (s, b)).1 p = Bool.xor (s p) true) ∧
    (∀ p, (¬ ∃ c, c < 8 ∧ B &&& (0x80 >>> c) ≠ 0 ∧ p = targetIdx x0 y0 r c) →
        (spriteRow x0 y0 r B (s, b)).1 p = s p) ∧
    ((spriteRow x0 y0 r B (s, b)).2 = true ↔
        b = true ∨ ∃ c, c < 8 ∧ B &&& (0x80 >>> c) ≠ 0 ∧ s (targetIdx x0 y0 r c) = true) := by
  have h := drawStep_foldl_char x0 y0 r B (List.range 8)
    (fun c hc => List.mem_range.mp hc) (List.nodup_range 8) s b
  rw [spriteRow_eq_foldl]
  simpa only [List.mem_range] using h

theorem spriteRows_char (ram : Nat → Nat) (i x0 y0 : Nat) (R : List Nat)
    (hR16 : ∀ r ∈ R, r < 16) (hRb : ∀ r ∈ R, i + r < RAM_SIZE) (hnd : R.Nodup)
    (s : Nat → Bool) (b : Bool) :
    ∃ S C, spriteRows ram i x0 y0 R (s, b) = .ok (S, C) ∧
      (∀ p, (∃ r ∈ R, ∃ c, c < 8 ∧ ram (i + r) &&& (0x80 >>> c) ≠ 0 ∧
          p = targetIdx x0 y0 r c) → S p = Bool.xor (s p) true) ∧
      (∀ p, (¬ ∃ r ∈ R, ∃ c, c < 8 ∧ ram (i + r) &&& (0x80 >>> c) ≠ 0 ∧
          p = targetIdx x0 y0 r c) → S p = s p) ∧
      (C = true ↔ b = true ∨ ∃ r ∈ R, ∃ c, c < 8 ∧ ram (i + r) &&& (0x80 >>> c) ≠ 0 ∧
          s (targetIdx x0 y0 r c) = true) := by
  induction R generalizing s b with
  | nil =>
    refine ⟨s, b, rfl, ?_, fun p _ => rfl, by simp⟩
    rintro p ⟨r, hr, -⟩
    simp at hr
  | cons r R' ih =>
    have hr16 : r < 16 := hR16 r (List.mem_cons_self r R')
    have hR16' : ∀ r' ∈ R', r' < 16 := fun r' h => hR16 r' (List.mem_cons_of_mem r h)
    have hRb' : ∀ r' ∈ R', i + r' < RAM_SIZE := fun r' h => hRb r' (List.mem_cons_of_mem r h)
    have hnd' : R'.Nodup := (List.nodup_cons.mp hnd).2
    have hrn : r ∉ R' := (List.nodup_cons.mp hnd).1
    have hcross : ∀ r' ∈ R', ∀ c' c'', c' < 8 → c'' < 8 →
        targetIdx x0 y0 r' c' ≠ targetIdx x0 y0 r c'' := by
      intro r' hr' c' c'' hc' hc'' heq
      obtain ⟨hre, -⟩ := targetIdx_inj x0 y0 (hR16' r' hr') hr16 hc' hc'' heq
      exact hrn (hre ▸ hr')
    obtain ⟨row1, row2, row3⟩ := spriteRow_char x0 y0 r (ram (i + r)) s b
    rcases hSR : spriteRow x0 y0 r (ram (i + r)) (s, b) with ⟨s1, b1⟩
    rw [hSR] at row1 row2 row3
    simp only at row1 row2 row3
    have hs1 : ∀ r' ∈ R', ∀ c', c' < 8 →
        s1 (targetIdx x0 y0 r' c') = s (targetIdx x0 y0 r' c') := by
      intro r' hr' c' hc'
      refine row2 _ ?_
      rintro ⟨c'', hc'', hbit'', hp''⟩
      exact hcross r' hr' c' c'' hc' hc'' hp''
    obtain ⟨S, C, hEq, h1, h2, h3⟩ := ih hR16' hRb' hnd' s1 b1
    refine ⟨S, C, ?_, ?_, ?_, ?_⟩
    · show spriteRows ram i x0 y0 (r :: R') (s, b) = .ok (S, C)
      simp only [spriteRows]
      rw [if_pos (hRb r (List.mem_cons_self r R')), hSR, hEq]
    · rintro p ⟨rr, hmem, c, hc, hbit, hp⟩
      rcases List.mem_cons.mp hmem with hreq | hmem'
      · subst hreq
        by_cases prest : ∃ r' ∈ R', ∃ c', c' < 8 ∧ ram (i + r') &&& (0x80 >>> c') ≠ 0 ∧
            p = targetIdx x0 y0 r' c'
        · obtain ⟨r', hr', c', hc', _, hp'⟩ := prest
          exact absurd (hp'.symm.trans hp) (hcross r' hr' c' c hc' hc)
        · rw [h2 p prest]
          exact row1 p ⟨c, hc, hbit, hp⟩
      · rw [h1 p ⟨rr, hmem', c, hc, hbit, hp⟩, hp, hs1 rr hmem' c hc]
    · intro p hno
      have hnoR' : ¬ ∃ r' ∈ R', ∃ c', c' < 8 ∧ ram (i + r') &&& (0x80 >>> c') ≠ 0 ∧
          p = targetIdx x0 y0 r' c' := by
        rintro ⟨r', hr', c', hc', hb', hp'⟩
        exact hno ⟨r', List.mem_cons_of_mem r hr', c', hc', hb', hp'⟩
      have hnoHead : ¬ ∃ c, c < 8 ∧ ram (i + r) &&& (0x80 >>> c) ≠ 0 ∧
          p = targetIdx x0 y0 r c := by
        rintro ⟨c, hc, hb', hp'⟩
        exact hno ⟨r, List.mem_cons_self r R', c, hc, hb', hp'⟩
      rw [h2 p hnoR']
      exact row2 p hnoHead
    · rw [h3, row3]
      have hiff : (∃ r' ∈ R', ∃ c', c' < 8 ∧ ram (i + r') &&& (0x80 >>> c') ≠ 0 ∧
          s1 (targetIdx x0 y0 r' c') = true) ↔
          (∃ r' ∈ R', ∃ c', c' < 8 ∧ ram (i + r') &&& (0x80 >>> c') ≠ 0 ∧
          s (targetIdx x0 y0 r' c') = true) := by
        constructor
        · rintro ⟨r', hr', c', hc', hb', hscr⟩
          rw [hs1 r' hr' c' hc'] at hscr
          exact ⟨r', hr', c', hc', hb', hscr⟩
        · rintro ⟨r', hr', c', hc', hb', hscr⟩
          exact ⟨r', hr', c', hc', hb', (hs1 r' hr' c' hc').trans hscr⟩
      rw [hiff]
      constructor
      · rintro ((hb | ⟨c, hc, hbit, hscr⟩) | ⟨r', hr', c', hc', hb', hscr⟩)
        · exact Or.inl hb
        · exact Or.inr ⟨r, List.mem_cons_self r R', c, hc, hbit, hscr⟩
        · exact Or.inr ⟨r', List.mem_cons_of_mem r hr', c', hc', hb', hscr⟩
      · rintro (hb | ⟨r', hr', c', hc', hb', hscr⟩)
        · exact Or.inl (Or.inl hb)
        · rcases List.mem_cons.mp hr' with hreq | hmem'
          · subst hreq
            exact Or.inl (Or.inr ⟨c', hc', hb', hscr⟩)
          · exact Or.inr ⟨r', hmem', c', hc', hb', hscr⟩

/-! ### Claim theorems -/

/-- C1: the claim says every word outside the 35 defined patterns — in
particular `0x5001` — faults with an unsupported-opcode error and mutates
nothing.  The source's `(5,_,_,_)` match arm ignores the low nibble, so
`0x5001` silently executes with `5XY0` skip semantics (here V0 = V0, so the
program counter advances by 2); a word such as `0x800F` that reaches the
wildcard arm ends in the `unimplemented!` panic instead. -/
theorem execute_0x5001_executes_silently :
    Emulator.execute Emulator.new 0x5001 0 = .ok { Emulator.new with program_counter := 0x202 } ∧
    Emulator.execute Emulator.new 0x800F 0 = .panic (.unimplemented 0x800F) :=
  ⟨rfl, rfl⟩

/-- C2: the claim says a step on `FX0A` with no key pressed terminates and
returns control to the host.  The source instead spins in a `while` loop
whose body cannot change the key state, so the step call diverges; once a
key is pressed, the wait resolves with Vx = the key index and the program
counter advanced past the instruction exactly once (by the fetch). -/
theorem tick_FX0A_busy_wait :
    waitState.tick 0 = .diverge ∧
    (∃ e1, Emulator.keypress waitState 3 true = .ok e1 ∧
      ∃ e2, e1.tick 0 = .ok e2 ∧ e2.v_registers 1 = 3 ∧ e2.program_counter = 0x202) :=
  ⟨rfl, ⟨_, rfl, ⟨_, rfl, rfl, rfl⟩⟩⟩

/-- C3: executing `DXYN` XORs exactly the framebuffer cells
`((Vx+c) mod 64, (Vy+r) mod 32)` for each sprite row `r < N` and bit column
`c < 8` whose sprite bit `(7−c)` is set, leaves every other cell unchanged,
and sets VF to 1 exactly when some XOR turned a lit cell off. -/
theorem execute_DXYN_draw (e : Emulator) (x y n rand : Nat)
    (hx : x < 16) (hy : y < 16) (hn : n < 16)
    (hI : e.i_register + n ≤ RAM_SIZE) :
    ∃ e1, e.execute (0xD000 + 256 * x + 16 * y + n) rand = .ok e1 ∧
      (∀ p, (∃ r, r < n ∧ ∃ c, c < 8 ∧ e.ram (e.i_register + r) &&& (0x80 >>> c) ≠ 0 ∧
          p = targetIdx (e.v_registers x) (e.v_registers y) r c) →
        e1.screen p = Bool.xor (e.screen p) true) ∧
      (∀ p, (¬ ∃ r, r < n ∧ ∃ c, c < 8 ∧ e.ram (e.i_register + r) &&& (0x80 >>> c) ≠ 0 ∧
          p = targetIdx (e.v_registers x) (e.v_registers y) r c) →
        e1.screen p = e.screen p) ∧
      ((∃ r, r < n ∧ ∃ c, c < 8 ∧ e.ram (e.i_register + r) &&& (0x80 >>> c) ≠ 0 ∧
          e.screen (targetIdx (e.v_registers x) (e.v_registers y) r c) = true) →
        e1.v_registers 0xF = 1) ∧
      ((¬ ∃ r, r < n ∧ ∃ c, c < 8 ∧ e.ram (e.i_register + r) &&& (0x80 >>> c) ≠ 0 ∧
          e.screen (targetIdx (e.v_registers x) (e.v_registers y) r c) = true) →
        e1.v_registers 0xF = 0) ∧
      (∀ j, j ≠ 0xF → e1.v_registers j = e.v_registers j) ∧
      e1.program_counter = e.program_counter ∧ e1.ram = e.ram ∧
      e1.i_register = e.i_register := by
  have h1d : ((0xD000 + 256 * x + 16 * y + n : Nat) &&& 0xF000) >>> 12 = 13 := by
    rw [digit1_eq]; omega
  have h2d : ((0xD000 + 256 * x + 16 * y + n : Nat) &&& 0x0F00) >>> 8 = x := by
    rw [digit2_eq]; omega
  have h3d : ((0xD000 + 256 * x + 16 * y + n : Nat) &&& 0x00F0) >>> 4 = y := by
    rw [digit3_eq]; omega
  have h4d : ((0xD000 + 256 * x + 16 * y + n : Nat) &&& 0x000F) = n := by
    rw [digit4_eq]; omega
  obtain ⟨S, C, hEq, h1, h2, h3⟩ := spriteRows_char e.ram e.i_register
    (e.v_registers x) (e.v_registers y) (List.range n)
    (fun r hr => by have := List.mem_range.mp hr; omega)
    (fun r hr => by have := List.mem_range.mp hr; omega)
    (List.nodup_range n) e.screen false
  simp only [List.mem_range] at h1 h2 h3
  have hrun : e.execute (0xD000 + 256 * x + 16 * y + n) rand =
      .ok { e with screen := S,
                   v_registers := setAt e.v_registers 0xF (if C then 1 else 0) } := by
    simp only [Emulator.execute, h1d, h2d, h3d, h4d]
    norm_num
    rw [hEq]
  refine ⟨_, hrun, ?_, ?_, ?_, ?_, ?_, rfl, rfl, rfl⟩
  · intro p hp
    exact h1 p hp
  · intro p hp
    exact h2 p hp
  · intro hex
    have hC : C = true := h3.mpr (Or.inr hex)
    simp [setAt, hC]
  · intro hnex
    have hCf : C = false := by
      rcases Bool.eq_false_or_eq_true C with h | h
      · rcases h3.mp h with hf | hex
        · exact absurd hf (by simp)
        · exact absurd hex hnex
      · exact h
    simp [setAt, hCf]
  · intro j hj
    simp [setAt, hj]

/-- Witness for C3: drawing the one-row sprite `0x01` at V0 = 63, V1 = 0
wraps the lit column to x = 6 and reports no collision on a clear screen. -/
theorem execute_DXYN_draw_witness :
    drawState.i_register + 1 ≤ RAM_SIZE ∧
    (∃ e1, drawState.execute (0xD000 + 256 * 0 + 16 * 1 + 1) 0 = .ok e1 ∧
      e1.screen 6 = true ∧ e1.v_registers 0xF = 0) := by
  refine ⟨by decide, ?_⟩
  obtain ⟨e1, hrun, h1, h2, h3, h4, h5, h6, h7, h8⟩ :=
    execute_DXYN_draw drawState 0 1 1 0 (by decide) (by decide) (by decide) (by decide)
  refine ⟨e1, hrun, ?_, ?_⟩
  · have hhit : ∃ r, r < 1 ∧ ∃ c, c < 8 ∧
        drawState.ram (drawState.i_register + r) &&& (0x80 >>> c) ≠ 0 ∧
        (6 : Nat) = targetIdx (drawState.v_registers 0) (drawState.v_registers 1) r c :=
      ⟨0, by decide, 7, by decide, by decide, by decide⟩
    rw [h1 6 hhit]
    decide
  · refine h4 ?_
    rintro ⟨r, hr, c, hc, hbit, hscr⟩
    exact absurd hscr (by simp [drawState, Emulator.new])

/-- C4: the claim says `load_program` validates the payload length and
reports an invalid-length error before mutating anything.  The source's
`load_rom` performs an unchecked slice copy: a 3585-byte payload panics on
the slice bounds (not a reported length error), while an in-range payload is
copied into ram at 0x200. -/
theorem load_rom_unchecked_copy :
    Emulator.load_rom Emulator.new (List.replicate 3585 0) = .error .indexOutOfBounds ∧
    (∃ e1, Emulator.load_rom Emulator.new [0xAB, 0xCD, 0xEF] = .ok e1 ∧
      e1.ram 0x200 = 0xAB ∧ e1.ram 0x201 = 0xCD ∧ e1.ram 0x202 = 0xEF ∧
      e1.ram 0x1FF = Emulator.new.ram 0x1FF ∧ e1.ram 0x203 = Emulator.new.ram 0x203 ∧
      e1.program_counter = 0x200) := by
  refine ⟨?_, ⟨_, rfl, rfl, rfl, rfl, rfl, rfl, rfl⟩⟩
  · show Emulator.load_rom Emulator.new (List.replicate 3585 0) = .error .indexOutOfBounds
    unfold Emulator.load_rom
    rw [if_neg (by rw [List.length_replicate]; norm_num [START_ADDRESS, RAM_SIZE])]

/-- C5: the claim says push at stack pointer 16 and pop at stack pointer 0
produce explicit reported StackOverflow / StackUnderflow faults.  The source
instead panics: `2NNN` with a full stack is an out-of-bounds stack write and
`00EE` with an empty stack is a checked-subtraction underflow.  In the
remaining cases push increments and pop decrements the pointer. -/
theorem stack_push_pop_unchecked :
    Emulator.execute fullStackState 0x2ABC 0 = .panic .indexOutOfBounds ∧
    Emulator.execute Emulator.new 0x00EE 0 = .panic .arithUnderflow ∧
    (∃ e1, Emulator.push { Emulator.new with stack_pointer := 15 } 0x204 = .ok e1 ∧
      e1.stack_pointer = 16) ∧
    (∃ r, Emulator.pop { Emulator.new with stack_pointer := 1 } = .ok r ∧
      r.2.stack_pointer = 0) :=
  ⟨rfl, rfl, ⟨_, rfl, rfl⟩, ⟨_, rfl, rfl⟩⟩

/-- C6: executing `8XY5` (X not the flag register) sets Vx to Vx − Vy
wrapping modulo 256 and VF to 1 exactly when no borrow occurred
(Vy ≤ Vx before the subtraction), else 0. -/
theorem execute_8XY5_correct (e : Emulator) (x y rand : Nat)
    (hx : x < 16) (hy : y < 16) (hxF : x ≠ 0xF) (hvx : e.v_registers x < 256) :
    ∃ e1, e.execute (0x8005 + 256 * x + 16 * y) rand = .ok e1 ∧
      e1.v_registers x = (e.v_registers x + 256 - e.v_registers y) % 256 ∧
      (e.v_registers y ≤ e.v_registers x →
        e1.v_registers x = e.v_registers x - e.v_registers y) ∧
      (e.v_registers y ≤ e.v_registers x → e1.v_registers 0xF = 1) ∧
      (e.v_registers x < e.v_registers y → e1.v_registers 0xF = 0) ∧
      e1.program_counter = e.program_counter := by
  have h1 : ((0x8005 + 256 * x + 16 * y : Nat) &&& 0xF000) >>> 12 = 8 := by rw [digit1_eq]; omega
  have h2 : ((0x8005 + 256 * x + 16 * y : Nat) &&& 0x0F00) >>> 8 = x := by rw [digit2_eq]; omega
  have h3 : ((0x8005 + 256 * x + 16 * y : Nat) &&& 0x00F0) >>> 4 = y := by rw [digit3_eq]; omega
  have h4 : ((0x8005 + 256 * x + 16 * y : Nat) &&& 0x000F) = 5 := by rw [digit4_eq]; omega
  simp only [Emulator.execute, h1, h2, h3, h4]
  norm_num
  refine ⟨?_, ?_, ?_, ?_⟩
  · simp [setAt]
  · intro h; simp [setAt]; omega
  · intro h; simp [setAt, Ne.symm hxF, Nat.not_lt.mpr h]
  · intro h; simp [setAt, Ne.symm hxF, h]

/-- Witness for C6: Vx = 5, Vy = 1 yields Vx = 4, VF = 1; Vx = 1, Vy = 5
yields Vx = 0xFC, VF = 0. -/
theorem execute_8XY5_correct_witness :
    (∃ e1, subStateA.execute (0x8005 + 256 * 0 + 16 * 1) 0 = .ok e1 ∧
        e1.v_registers 0 = 0x04 ∧ e1.v_registers 0xF = 1) ∧
    (∃ e1, subStateB.execute (0x8005 + 256 * 0 + 16 * 1) 0 = .ok e1 ∧
        e1.v_registers 0 = 0xFC ∧ e1.v_registers 0xF = 0) := by
  constructor
  · obtain ⟨e1, heq, hwrap, hsub, hvf1, hvf0, hpc⟩ :=
      execute_8XY5_correct subStateA 0 1 0 (by decide) (by decide) (by decide) (by decide)
    exact ⟨e1, heq, by rw [hwrap]; decide, hvf1 (by decide)⟩
  · obtain ⟨e1, heq, hwrap, hsub, hvf1, hvf0, hpc⟩ :=
      execute_8XY5_correct subStateB 0 1 0 (by decide) (by decide) (by decide) (by decide)
    exact ⟨e1, heq, by rw [hwrap]; decide, hvf0 (by decide)⟩

/-- C7: fetch forms the instruction word big-endian from the bytes at the
program counter, advances the counter by 2 before execution, and a `1NNN`
jump therefore leaves the counter at exactly NNN, not NNN + 2. -/
theorem fetch_big_endian_pc_advance (e : Emulator) (rand nnn hi lo : Nat)
    (hpc : e.program_counter + 1 < RAM_SIZE) (hnnn : nnn < 4096) :
    e.fetch = .ok ((e.ram e.program_counter <<< 8) ||| e.ram (e.program_counter + 1),
        { e with program_counter := e.program_counter + 2 }) ∧
    (∀ s : Emulator, s.execute (0x1000 + nnn) rand = .ok { s with program_counter := nnn }) ∧
    (e.ram e.program_counter = 0x10 + hi → hi < 16 →
      e.ram (e.program_counter + 1) = lo → lo < 256 →
      e.tick rand = .ok { e with program_counter := 256 * hi + lo }) := by
  have hfetch : e.fetch = .ok ((e.ram e.program_counter <<< 8) ||| e.ram (e.program_counter + 1),
      { e with program_counter := e.program_counter + 2 }) := by
    simp only [Emulator.fetch]
    rw [if_pos hpc]
  have hexec : ∀ (s : Emulator) (m : Nat), m < 4096 →
      s.execute (0x1000 + m) rand = .ok { s with program_counter := m } := by
    intro s m hm
    have h1 : ((0x1000 + m : Nat) &&& 0xF000) >>> 12 = 1 := by rw [digit1_eq]; omega
    have hmask : (0x1000 + m : Nat) &&& 0xFFF = m := by rw [mask_FFF_eq]; omega
    simp only [Emulator.execute, h1, hmask]
    norm_num
  refine ⟨hfetch, fun s => hexec s nnn hnnn, ?_⟩
  intro hb1 hhi hb2 hlo
  unfold Emulator.tick
  rw [hfetch, hb1, hb2]
  have hinstr : ((0x10 + hi) <<< 8) ||| lo = 0x1000 + (256 * hi + lo) := by
    rw [shiftLeft_or_eq_add _ _ hlo]; ring
  rw [hinstr]
  exact hexec _ (256 * hi + lo) (by omega)

/-- Witness for C7: a jump instruction `1234` stored at 0x200 lands the
program counter exactly at 0x234. -/
theorem fetch_big_endian_pc_advance_witness :
    (jumpState.program_counter + 1 < RAM_SIZE ∧ (0x345 : Nat) < 4096) ∧
    (jumpState.fetch = .ok ((jumpState.ram jumpState.program_counter <<< 8) |||
        jumpState.ram (jumpState.program_counter + 1),
        { jumpState with program_counter := jumpState.program_counter + 2 }) ∧
      (∀ s : Emulator, s.execute (0x1000 + 0x345) 0 =
        .ok { s with program_counter := 0x345 }) ∧
      (jumpState.ram jumpState.program_counter = 0x10 + 2 → 2 < 16 →
        jumpState.ram (jumpState.program_counter + 1) = 0x34 → 0x34 < 256 →
        jumpState.tick 0 = .ok { jumpState with program_counter := 256 * 2 + 0x34 })) :=
  ⟨⟨by decide, by decide⟩,
    fetch_big_endian_pc_advance jumpState 0 0x345 2 0x34 (by decide) (by decide)⟩

/-- C8: `reset` after any state yields a state identical field-for-field to
a freshly created one: font table re-seeded at 0x000–0x04F, all other
memory zero, program counter 0x200, and all other fields zeroed. -/
theorem reset_restores_fresh_state (s : Emulator) :
    s.reset = Emulator.new ∧
    s.reset.program_counter = 0x200 ∧
    (∀ a, a < FONTSET_SIZE → s.reset.ram a = FONTSET.getD a 0) ∧
    (∀ a, FONTSET_SIZE ≤ a → s.reset.ram a = 0) ∧
    (∀ i, s.reset.v_registers i = 0) ∧
    s.reset.i_register = 0 ∧ s.reset.stack_pointer = 0 ∧
    (∀ i, s.reset.stack i = 0) ∧ (∀ i, s.reset.keys i = false) ∧
    s.reset.delay_timer = 0 ∧ s.reset.sound_timer = 0 ∧
    (∀ p, s.reset.screen p = false) := by
  refine ⟨rfl, rfl, ?_, ?_, fun i => rfl, rfl, rfl, fun i => rfl, fun i => rfl, rfl, rfl,
    fun p => rfl⟩
  · intro a ha
    simp [Emulator.reset, seedFont, ha]
  · intro a ha
    simp [Emulator.reset, seedFont, Nat.not_lt.mpr ha]

/-- Witness for C8: resetting a mutated state restores the fresh state. -/
theorem reset_restores_fresh_state_witness :
    dirtyState.reset = Emulator.new ∧
    ((0 : Nat) < FONTSET_SIZE ∧ dirtyState.reset.ram 0 = FONTSET.getD 0 0) ∧
    (FONTSET_SIZE ≤ 0x200 ∧ dirtyState.reset.ram 0x200 = 0) ∧
    dirtyState.reset.program_counter = 0x200 := by
  obtain ⟨h1, h2, h3, h4, -⟩ := reset_restores_fresh_state dirtyState
  exact ⟨h1, ⟨by decide, h3 0 (by decide)⟩, ⟨by decide, h4 0x200 (by decide)⟩, h2⟩

/-- C9: for `8XY4`, `8XY5` and `8XY7` with X = 0xF, the carry/borrow flag
write to VF happens before the result write to Vx = VF, so the final VF is
the wrapped arithmetic result itself, not the flag. -/
theorem execute_8F_arith_flag_overwritten (e : Emulator) (y rand : Nat) (hy : y < 16) :
    (∃ e1, e.execute (0x8F04 + 16 * y) rand = .ok e1 ∧
        e1.v_registers 0xF = (e.v_registers 0xF + e.v_registers y) % 256) ∧
    (∃ e1, e.execute (0x8F05 + 16 * y) rand = .ok e1 ∧
        e1.v_registers 0xF = (e.v_registers 0xF + 256 - e.v_registers y) % 256) ∧
    (∃ e1, e.execute (0x8F07 + 16 * y) rand = .ok e1 ∧
        e1.v_registers 0xF = (e.v_registers y + 256 - e.v_registers 0xF) % 256) := by
  refine ⟨?_, ?_, ?_⟩
  · have h1 : ((0x8F04 + 16 * y : Nat) &&& 0xF000) >>> 12 = 8 := by rw [digit1_eq]; omega
    have h2 : ((0x8F04 + 16 * y : Nat) &&& 0x0F00) >>> 8 = 15 := by rw [digit2_eq]; omega
    have h3 : ((0x8F04 + 16 * y : Nat) &&& 0x00F0) >>> 4 = y := by rw [digit3_eq]; omega
    have h4 : ((0x8F04 + 16 * y : Nat) &&& 0x000F) = 4 := by rw [digit4_eq]; omega
    simp only [Emulator.execute, h1, h2, h3, h4]
    norm_num
    simp [setAt]
  · have h1 : ((0x8F05 + 16 * y : Nat) &&& 0xF000) >>> 12 = 8 := by rw [digit1_eq]; omega
    have h2 : ((0x8F05 + 16 * y : Nat) &&& 0x0F00) >>> 8 = 15 := by rw [digit2_eq]; omega
    have h3 : ((0x8F05 + 16 * y : Nat) &&& 0x00F0) >>> 4 = y := by rw [digit3_eq]; omega
    have h4 : ((0x8F05 + 16 * y : Nat) &&& 0x000F) = 5 := by rw [digit4_eq]; omega
    simp only [Emulator.execute, h1, h2, h3, h4]
    norm_num
    simp [setAt]
  · have h1 : ((0x8F07 + 16 * y : Nat) &&& 0xF000) >>> 12 = 8 := by rw [digit1_eq]; omega
    have h2 : ((0x8F07 + 16 * y : Nat) &&& 0x0F00) >>> 8 = 15 := by rw [digit2_eq]; omega
    have h3 : ((0x8F07 + 16 * y : Nat) &&& 0x00F0) >>> 4 = y := by rw [digit3_eq]; omega
    have h4 : ((0x8F07 + 16 * y : Nat) &&& 0x000F) = 7 := by rw [digit4_eq]; omega
    simp only [Emulator.execute, h1, h2, h3, h4]
    norm_num
    simp [setAt]

/-- Witness for C9: applying the three `8FY_` cases at a concrete state. -/
theorem execute_8F_arith_flag_overwritten_witness :
    (1 : Nat) < 16 ∧
    ((∃ e1, subStateA.execute (0x8F04 + 16 * 1) 0 = .ok e1 ∧
        e1.v_registers 0xF = (subStateA.v_registers 0xF + subStateA.v_registers 1) % 256) ∧
      (∃ e1, subStateA.execute (0x8F05 + 16 * 1) 0 = .ok e1 ∧
        e1.v_registers 0xF =
          (subStateA.v_registers 0xF + 256 - subStateA.v_registers 1) % 256) ∧
      (∃ e1, subStateA.execute (0x8F07 + 16 * 1) 0 = .ok e1 ∧
        e1.v_registers 0xF =
          (subStateA.v_registers 1 + 256 - subStateA.v_registers 0xF) % 256)) :=
  ⟨by decide, execute_8F_arith_flag_overwritten subStateA 1 0 (by decide)⟩

/-- C10: `EX9E`/`EXA1` index the 16-entry key array directly by Vx; with
Vx ≤ 15 the only effect is the conditional skip, and with Vx ≥ 16 the
access is out of range (a panic, since the source applies no bound). -/
theorem execute_EX9E_EXA1_key_indexing (e : Emulator) (x rand : Nat) (hx : x < 16) :
    (e.v_registers x < 16 →
      e.execute (0xE09E + 256 * x) rand =
        .ok (if e.keys (e.v_registers x) then
              { e with program_counter := (e.program_counter + 2) % 65536 } else e) ∧
      e.execute (0xE0A1 + 256 * x) rand =
        .ok (if e.keys (e.v_registers x) then e else
              { e with program_counter := (e.program_counter + 2) % 65536 })) ∧
    (16 ≤ e.v_registers x →
      e.execute (0xE09E + 256 * x) rand = .panic .indexOutOfBounds ∧
      e.execute (0xE0A1 + 256 * x) rand = .panic .indexOutOfBounds) := by
  have h1 : ((0xE09E + 256 * x : Nat) &&& 0xF000) >>> 12 = 14 := by rw [digit1_eq]; omega
  have h2 : ((0xE09E + 256 * x : Nat) &&& 0x0F00) >>> 8 = x := by rw [digit2_eq]; omega
  have h3 : ((0xE09E + 256 * x : Nat) &&& 0x00F0) >>> 4 = 9 := by rw [digit3_eq]; omega
  have h4 : ((0xE09E + 256 * x : Nat) &&& 0x000F) = 14 := by rw [digit4_eq]; omega
  have g1 : ((0xE0A1 + 256 * x : Nat) &&& 0xF000) >>> 12 = 14 := by rw [digit1_eq]; omega
  have g2 : ((0xE0A1 + 256 * x : Nat) &&& 0x0F00) >>> 8 = x := by rw [digit2_eq]; omega
  have g3 : ((0xE0A1 + 256 * x : Nat) &&& 0x00F0) >>> 4 = 10 := by rw [digit3_eq]; omega
  have g4 : ((0xE0A1 + 256 * x : Nat) &&& 0x000F) = 1 := by rw [digit4_eq]; omega
  constructor
  · intro hk
    constructor
    · simp only [Emulator.execute, h1, h2, h3, h4]
      norm_num [KEYS_SIZE, hk]
      by_cases hkey : e.keys (e.v_registers x) <;> simp [hkey]
    · simp only [Emulator.execute, g1, g2, g3, g4]
      norm_num [KEYS_SIZE, hk]
      by_cases hkey : e.keys (e.v_registers x) <;> simp [hkey]
  · intro hk
    constructor
    · simp only [Emulator.execute, h1, h2, h3, h4]
      norm_num [KEYS_SIZE, Nat.not_lt.mpr hk]
    · simp only [Emulator.execute, g1, g2, g3, g4]
      norm_num [KEYS_SIZE, Nat.not_lt.mpr hk]

/-- Witness for C10: V0 = 5 is an in-range key index, V2 = 0x30 panics. -/
theorem execute_EX9E_EXA1_key_indexing_witness :
    (subStateA.v_registers 0 < 16 ∧ 16 ≤ keyState.v_registers 2) ∧
    (subStateA.execute (0xE09E + 256 * 0) 0 =
        .ok (if subStateA.keys (subStateA.v_registers 0) then
          { subStateA with program_counter := (subStateA.program_counter + 2) % 65536 }
          else subStateA) ∧
      subStateA.execute (0xE0A1 + 256 * 0) 0 =
        .ok (if subStateA.keys (subStateA.v_registers 0) then subStateA else
          { subStateA with program_counter := (subStateA.program_counter + 2) % 65536 })) ∧
    (keyState.execute (0xE09E + 256 * 2) 0 = .panic .indexOutOfBounds ∧
      keyState.execute (0xE0A1 + 256 * 2) 0 = .panic .indexOutOfBounds) :=
  ⟨⟨by decide, by decide⟩,
    (execute_EX9E_EXA1_key_indexing subStateA 0 0 (by decide)).1 (by decide),
    (execute_EX9E_EXA1_key_indexing keyState 2 0 (by decide)).2 (by decide)⟩

end Chip8
